import Mathlib

/-!
Shallow embedding of the mock order-management API (`src/server.js`).

Modelling conventions:
* JavaScript numbers are modelled as exact rationals (`ℚ`); the JS
  `Number(x.toFixed(2))` rounding step is modelled as half-up rounding to
  two decimal places, which is what it computes on the exact values that
  occur here.
* A JS `Map` is modelled as an association list with insertion-order
  preserving `mapGet` / `mapSet`.
* Request-body fields that may be absent are `Option`s; the JS falsy test
  `!x` on a string field is `strFalsy` (absent or empty) and on a numeric
  field is `numFalsy` (absent or zero).
* Each HTTP handler is a pure function from the server state and the
  request to the new state and a response; the current timestamp and the
  freshly generated order identifier are passed as parameters.
* Order status is kept as a `String`, exactly as the JS stores it, so that
  membership in the six-value enumeration is a real invariant.
-/

namespace MockOrderApi

/-- The six-value status enumeration (`validStatuses` in `server.js`). -/
def validStatuses : List String :=
  ["pending", "confirmed", "processing", "shipped", "delivered", "cancelled"]

/-- The JS object `STATUS_TRANSITIONS`; indexing an object with a key it
does not have yields `undefined`, hence the `Option`. -/
def STATUS_TRANSITIONS : String → Option (List String)
  | "pending" => some ["confirmed", "cancelled"]
  | "confirmed" => some ["processing", "cancelled"]
  | "processing" => some ["shipped", "cancelled"]
  | "shipped" => some ["delivered"]
  | "delivered" => some []
  | "cancelled" => some []
  | _ => none

/-- Whether the status machine permits `current → target`:
`STATUS_TRANSITIONS[current].includes(target)` (false when `current` is not
a key, where the JS would throw). -/
def canTransition (current target : String) : Bool :=
  match STATUS_TRANSITIONS current with
  | some row => row.contains target
  | none => false

/-- JS truthiness of an optional string: `!x` holds when the field is
absent or the empty string. -/
def strFalsy : Option String → Bool
  | none => true
  | some s => s == ""

/-- JS truthiness of an optional number: `!x` holds when the field is
absent or zero. -/
def numFalsy : Option ℚ → Bool
  | none => true
  | some q => q == 0

/-- A line item as stored on an order. -/
structure Item where
  productId : String
  quantity : ℚ
  unitPrice : ℚ
deriving DecidableEq

/-- A line item as it arrives in a request body: every field may be
missing. -/
structure ItemInput where
  productId : Option String
  quantity : Option ℚ
  unitPrice : Option ℚ
deriving DecidableEq

/-- Reading the fields of a request item the way the handler does once
validation has passed. -/
def toItem (it : ItemInput) : Item :=
  ⟨it.productId.getD "", it.quantity.getD 0, it.unitPrice.getD 0⟩

/-- Error codes appearing in error response bodies. -/
inductive ErrCode
  | VALIDATION_ERROR
  | NOT_FOUND
  | INVALID_STATUS_TRANSITION
  | UNAUTHORIZED
  | INTERNAL_ERROR
deriving DecidableEq

/-- An error response: HTTP status, error code, message. -/
structure ApiError where
  httpStatus : Nat
  error : ErrCode
  message : String
deriving DecidableEq

/-- The per-item loop of the `validateCreateOrder` middleware
(`server.js` lines 80-93): first failure wins. -/
def validateItems : List ItemInput → Option ApiError
  | [] => none
  | item :: rest =>
    if strFalsy item.productId || numFalsy item.quantity || numFalsy item.unitPrice then
      some ⟨400, .VALIDATION_ERROR, "Each item must have productId, quantity, and unitPrice"⟩
    else if item.quantity.getD 0 ≤ 0 || item.unitPrice.getD 0 < 0 then
      some ⟨400, .VALIDATION_ERROR, "Quantity must be positive and unitPrice must be non-negative"⟩
    else validateItems rest

/-- The `validateCreateOrder` middleware (`server.js` lines 55-96):
returns the first validation error, or `none` meaning `next()`. -/
def validateCreateOrder (idempotencyKey customerId : Option String)
    (items : Option (List ItemInput)) : Option ApiError :=
  if strFalsy idempotencyKey then
    some ⟨400, .VALIDATION_ERROR, "Idempotency-Key header is required"⟩
  else if strFalsy customerId then
    some ⟨400, .VALIDATION_ERROR, "Customer ID is required"⟩
  else if (items.getD []).isEmpty then
    some ⟨400, .VALIDATION_ERROR, "At least one item is required"⟩
  else validateItems (items.getD [])

/-- The `calculateTotal` utility (`server.js` lines 100-102). -/
def calculateTotal (items : List Item) : ℚ :=
  items.foldl (fun total item => total + item.quantity * item.unitPrice) 0

/-- Half-up rounding to two decimal places, the effect of the JS
`Number(x.toFixed(2))` on the totals computed here. -/
def roundTo2 (q : ℚ) : ℚ :=
  ((⌊q * 100 + 1 / 2⌋ : ℤ) : ℚ) / 100

/-- An order record as stored in the order store. Timestamps are
milliseconds since the epoch (the JS stores ISO strings; comparison order
is the same). An order created by `createOrder` has no `statusReason`
field, hence the `Option`. -/
structure Order where
  orderId : String
  customerId : String
  placementDate : Int
  lastUpdated : Int
  status : String
  items : List Item
  totalAmount : ℚ
  statusReason : Option String
deriving DecidableEq

/-- Lookup in a JS `Map` modelled as an association list
(`Map.prototype.get`). -/
def mapGet : List (String × α) → String → Option α
  | [], _ => none
  | (k', v) :: rest, k => if k' == k then some v else mapGet rest k

/-- Membership test in a JS `Map` (`Map.prototype.has`). -/
def mapHas (m : List (String × α)) (k : String) : Bool :=
  (mapGet m k).isSome

/-- Insertion into a JS `Map` (`Map.prototype.set`): replaces the entry in
place if the key is present, appends otherwise. -/
def mapSet : List (String × α) → String → α → List (String × α)
  | [], k, v => [(k, v)]
  | (k', v') :: rest, k, v =>
    if k' == k then (k, v) :: rest else (k', v') :: mapSet rest k v

/-- The server's mutable state: the order store and the idempotency
ledger (`orders` and `idempotencyKeys` in `server.js`). -/
structure ServerState where
  orders : List (String × Order)
  idempotencyKeys : List (String × String)
deriving DecidableEq

/-- The `createOrder` utility (`server.js` lines 104-124): builds the
order record, inserts it into the store, and returns it. The fresh
identifier and the current time are parameters. -/
def createOrder (st : ServerState) (customerId : String) (items : List Item)
    (id : String) (now : Int) : ServerState × Order :=
  let order : Order :=
    { orderId := id
      customerId := customerId
      placementDate := now
      lastUpdated := now
      status := "pending"
      items := items
      totalAmount := roundTo2 (calculateTotal items)
      statusReason := none }
  ({ st with orders := mapSet st.orders id order }, order)

/-- The `POST /api/v1/orders` handler together with its
`validateCreateOrder` middleware (`server.js` lines 55-96 and 139-161).
The successful payload carries the HTTP status (201 new / 200 replay) and
the order body (`none` would be an empty body, when the ledger points at a
missing order). -/
def postOrders (st : ServerState) (idempotencyKey customerId : Option String)
    (items : Option (List ItemInput)) (freshId : String) (now : Int) :
    ServerState × Except ApiError (Nat × Option Order) :=
  match validateCreateOrder idempotencyKey customerId items with
  | some e => (st, .error e)
  | none =>
    let key := idempotencyKey.getD ""
    match mapGet st.idempotencyKeys key with
    | some existingOrderId => (st, .ok (200, mapGet st.orders existingOrderId))
    | none =>
      let p := createOrder st (customerId.getD "") ((items.getD []).map toItem) freshId now
      ({ p.1 with idempotencyKeys := mapSet p.1.idempotencyKeys key freshId },
        .ok (201, some p.2))

/-- The successful mutation of a status update (`server.js` lines 286-294):
set the status, refresh `lastUpdated`, and overwrite `statusReason` only
when the supplied reason is truthy. -/
def applyUpdate (order : Order) (s : String) (reason : Option String) (now : Int) : Order :=
  { order with
    status := s
    lastUpdated := now
    statusReason := if strFalsy reason then order.statusReason else reason }

/-- The `PATCH /api/v1/orders/:orderId/status` handler (`server.js`
lines 248-302). A current status outside the transition table would make
the JS throw on `undefined.includes`, which the error middleware turns
into a 500. -/
def patchStatus (st : ServerState) (orderId : String)
    (status reason : Option String) (now : Int) :
    ServerState × Except ApiError Order :=
  match mapGet st.orders orderId with
  | none => (st, .error ⟨404, .NOT_FOUND, "Order not found"⟩)
  | some order =>
    if strFalsy status then
      (st, .error ⟨400, .VALIDATION_ERROR, "Status is required"⟩)
    else
      let s := status.getD ""
      if ¬ validStatuses.contains s then
        (st, .error ⟨400, .VALIDATION_ERROR,
          "Invalid status. Must be one of: " ++ String.intercalate ", " validStatuses⟩)
      else
        match STATUS_TRANSITIONS order.status with
        | none => (st, .error ⟨500, .INTERNAL_ERROR, "An unexpected error occurred"⟩)
        | some row =>
          if ¬ row.contains s then
            (st, .error ⟨409, .INVALID_STATUS_TRANSITION,
              "Cannot transition from " ++ order.status ++ " to " ++ s⟩)
          else
            let order' : Order := applyUpdate order s reason now
            ({ st with orders := mapSet st.orders orderId order' }, .ok order')

/-- A `startDate` / `endDate` query parameter, restricted to date-only
strings: absent, unparseable, or a calendar day counted in days since the
epoch. `new Date(s)` is then midnight UTC of that day and
`new Date(s ++ "T23:59:59.999Z")` is 86399999 ms later. -/
inductive DateParam
  | absent
  | malformed
  | dateOnly (days : Int)
deriving DecidableEq

/-- Milliseconds in a day. -/
def msPerDay : Int := 86400000

/-- The `startDate` filter block of the search handler (`server.js`
lines 196-207). -/
def applyStartFilter (l : List Order) : DateParam → Except ApiError (List Order)
  | .absent => .ok l
  | .malformed => .error ⟨400, .VALIDATION_ERROR, "Invalid start date format"⟩
  | .dateOnly d => .ok (l.filter fun o => decide (d * msPerDay ≤ o.placementDate))

/-- The `endDate` filter block of the search handler (`server.js`
lines 209-220): end of day at 23:59:59.999 UTC. -/
def applyEndFilter (l : List Order) : DateParam → Except ApiError (List Order)
  | .absent => .ok l
  | .malformed => .error ⟨400, .VALIDATION_ERROR, "Invalid end date format"⟩
  | .dateOnly d => .ok (l.filter fun o => decide (o.placementDate ≤ d * msPerDay + 86399999))

/-- The filtered result set of a search, before sorting and pagination:
customer filter, then start-date filter, then end-date filter, each date
check failing on a malformed parameter. -/
def filteredSearch (st : ServerState) (cid : String)
    (startDate endDate : DateParam) : Except ApiError (List Order) :=
  match applyStartFilter ((st.orders.map Prod.snd).filter fun o => o.customerId == cid)
      startDate with
  | .error e => .error e
  | .ok afterStart => applyEndFilter afterStart endDate

/-- Descending placement-date comparator of the search handler's sort. -/
def newestFirst (a b : Order) : Bool :=
  decide (b.placementDate ≤ a.placementDate)

/-- An index into a JS `Array.prototype.slice`: negative values count from
the end, and everything is clamped to the array bounds. -/
def jsSliceIdx (len : Nat) (i : Int) : Nat :=
  if i < 0 then (max ((len : Int) + i) 0).toNat else min i.toNat len

/-- JS `Array.prototype.slice(s, e)`. -/
def jsSlice (l : List α) (s e : Int) : List α :=
  (l.drop (jsSliceIdx l.length s)).take (jsSliceIdx l.length e - jsSliceIdx l.length s)

/-- The body of a successful search response. -/
structure SearchResult where
  orders : List Order
  totalCount : Nat
  limit : Int
  offset : Int
deriving DecidableEq

/-- The `GET /api/v1/orders` search handler (`server.js` lines 180-244).
`limit` and `offset` are the parsed numeric query values (defaults 20
and 0). The handler reads no clock and mutates nothing, so it returns
only the response. -/
def searchOrders (st : ServerState) (customerId : Option String)
    (startDate endDate : DateParam) (limit offset : Int) :
    Except ApiError SearchResult :=
  if strFalsy customerId then
    .error ⟨400, .VALIDATION_ERROR, "Customer ID is required"⟩
  else
    match filteredSearch st (customerId.getD "") startDate endDate with
    | .error e => .error e
    | .ok filtered =>
      let sorted := filtered.mergeSort newestFirst
      let totalCount := sorted.length
      let limitNum := min limit 100
      .ok ⟨jsSlice sorted offset (offset + limitNum), totalCount, limitNum, offset⟩

/-! ### Shared helper lemmas -/

theorem mapGet_mapSet (m : List (String × α)) (k : String) (v : α) (k' : String) :
    mapGet (mapSet m k v) k' = if k == k' then some v else mapGet m k' := by
  induction m with
  | nil => rfl
  | cons p rest ih =>
    obtain ⟨a, b⟩ := p
    by_cases h : a = k
    · subst h
      by_cases h2 : a = k'
      · simp [mapSet, mapGet, h2]
      · simp [mapSet, mapGet, h2]
    · simp only [mapSet, mapGet, beq_iff_eq, if_neg h, ih]
      by_cases h' : a = k'
      · subst h'
        simp [Ne.symm h]
      · simp [h']

theorem mem_mapSet {m : List (String × α)} {k : String} {v : α} {p : String × α}
    (hp : p ∈ mapSet m k v) : p ∈ m ∨ p = (k, v) := by
  induction m with
  | nil => simpa [mapSet] using hp
  | cons q rest ih =>
    simp only [mapSet] at hp
    split at hp
    · rcases List.mem_cons.mp hp with h | h
      · exact Or.inr h
      · exact Or.inl (List.mem_cons_of_mem _ h)
    · rcases List.mem_cons.mp hp with h | h
      · exact Or.inl (h ▸ List.mem_cons_self _ _)
      · rcases ih h with h' | h'
        · exact Or.inl (List.mem_cons_of_mem _ h')
        · exact Or.inr h'

theorem validStatuses_not_falsy {t : String} (ht : t ∈ validStatuses) :
    (t == "") = false := by
  fin_cases ht <;> decide

theorem canTransition_row {c : String} (hc : c ∈ validStatuses) :
    ∃ row, STATUS_TRANSITIONS c = some row ∧ ∀ t, canTransition c t = row.contains t := by
  fin_cases hc <;> exact ⟨_, rfl, fun _ => rfl⟩

theorem patchStatus_spec (st : ServerState) (oid : String) (s r : Option String) (now : Int) :
    ((patchStatus st oid s r now).1 = st ∧ ∀ o', (patchStatus st oid s r now).2 ≠ .ok o') ∨
    (∃ o t, mapGet st.orders oid = some o ∧ s = some t ∧ t ∈ validStatuses ∧
      canTransition o.status t = true ∧
      patchStatus st oid s r now =
        ({ st with orders := mapSet st.orders oid (applyUpdate o t r now) },
          .ok (applyUpdate o t r now))) := by
  rcases hget : mapGet st.orders oid with _ | o
  · exact Or.inl ⟨by simp [patchStatus, hget], fun o' => by simp [patchStatus, hget]⟩
  · rcases s with _ | t
    · exact Or.inl ⟨by simp [patchStatus, hget, strFalsy],
        fun o' => by simp [patchStatus, hget, strFalsy]⟩
    · by_cases hne : (t == "") = true
      · exact Or.inl ⟨by simp [patchStatus, hget, strFalsy, hne],
          fun o' => by simp [patchStatus, hget, strFalsy, hne]⟩
      · rw [Bool.not_eq_true] at hne
        by_cases hv : t ∈ validStatuses
        · rcases hrow : STATUS_TRANSITIONS o.status with _ | row
          · exact Or.inl ⟨by simp [patchStatus, hget, strFalsy, hne, hv, hrow],
              fun o' => by simp [patchStatus, hget, strFalsy, hne, hv, hrow]⟩
          · by_cases hc : t ∈ row
            · refine Or.inr ⟨o, t, rfl, rfl, hv, ?_, ?_⟩
              · simp [canTransition, hrow, hc]
              · simp [patchStatus, hget, strFalsy, hne, hv, hrow, hc]
            · exact Or.inl ⟨by simp [patchStatus, hget, strFalsy, hne, hv, hrow, hc],
                fun o' => by simp [patchStatus, hget, strFalsy, hne, hv, hrow, hc]⟩
        · exact Or.inl ⟨by simp [patchStatus, hget, strFalsy, hne, hv],
            fun o' => by simp [patchStatus, hget, strFalsy, hne, hv]⟩

theorem validateItems_error {l : List ItemInput} {e : ApiError}
    (h : validateItems l = some e) : e.httpStatus = 400 ∧ e.error = .VALIDATION_ERROR := by
  induction l with
  | nil => simp [validateItems] at h
  | cons item rest ih =>
    simp only [validateItems] at h
    split at h
    · cases h
      exact ⟨rfl, rfl⟩
    · split at h
      · cases h
        exact ⟨rfl, rfl⟩
      · exact ih h

/-! ### Concrete fixtures used by witnesses -/

/-- A stored order in state `pending`, used as a concrete witness input. -/
def wOrder : Order :=
  { orderId := "ord-w", customerId := "cust-w", placementDate := 0, lastUpdated := 0,
    status := "pending", items := [⟨"prod-w", 1, 10⟩], totalAmount := 10, statusReason := none }

/-- A server state holding `wOrder` and an idempotency mapping to it. -/
def wState : ServerState :=
  { orders := [("ord-w", wOrder)], idempotencyKeys := [("key-w", "ord-w")] }

/-! ### Claims -/

/-- Claim C2: a status transition is permitted exactly when the target is in
the table row of the current status — pending → confirmed/cancelled,
confirmed → processing/cancelled, processing → shipped/cancelled,
shipped → delivered, delivered and cancelled terminal; no self-transitions;
a transition not in the row fails with a 409 `INVALID_STATUS_TRANSITION`
carrying the current and requested status; cancelled is reachable in one
step from pending, confirmed and processing but not from shipped or
delivered. -/
theorem statusMachine_table_and_guard
    (st : ServerState) (id : String) (o : Order) (t : String) (r : Option String) (now : Int)
    (ho : mapGet st.orders id = some o) (hs : o.status ∈ validStatuses)
    (ht : t ∈ validStatuses) :
    (STATUS_TRANSITIONS "pending" = some ["confirmed", "cancelled"] ∧
     STATUS_TRANSITIONS "confirmed" = some ["processing", "cancelled"] ∧
     STATUS_TRANSITIONS "processing" = some ["shipped", "cancelled"] ∧
     STATUS_TRANSITIONS "shipped" = some ["delivered"] ∧
     STATUS_TRANSITIONS "delivered" = some [] ∧
     STATUS_TRANSITIONS "cancelled" = some []) ∧
    (∀ c ∈ validStatuses, canTransition c c = false) ∧
    (canTransition "pending" "cancelled" = true ∧
     canTransition "confirmed" "cancelled" = true ∧
     canTransition "processing" "cancelled" = true ∧
     canTransition "shipped" "cancelled" = false ∧
     canTransition "delivered" "cancelled" = false) ∧
    (canTransition o.status t = true →
      ∃ o', patchStatus st id (some t) r now =
        ({ st with orders := mapSet st.orders id o' }, .ok o')) ∧
    (canTransition o.status t = false →
      patchStatus st id (some t) r now =
        (st, .error ⟨409, .INVALID_STATUS_TRANSITION,
          "Cannot transition from " ++ o.status ++ " to " ++ t⟩)) := by
  obtain ⟨row, hrow, hct⟩ := canTransition_row hs
  have h1 := validStatuses_not_falsy ht
  refine ⟨by decide, by decide, by decide, ?_, ?_⟩
  · intro h
    have h3 : t ∈ row := by
      have := hct t
      rw [h] at this
      exact List.elem_iff.mp this.symm
    exact ⟨applyUpdate o t r now,
      by simp [patchStatus, ho, strFalsy, h1, ht, hrow, h3]⟩
  · intro h
    have h3 : t ∉ row := by
      intro hmem
      have h4 := hct t
      rw [h] at h4
      simp [hmem] at h4
    simp [patchStatus, ho, strFalsy, h1, ht, hrow, h3]

/-- Witness for C2: transitioning the pending order `wOrder` to `delivered`
is rejected with a 409 naming both statuses. -/
theorem statusMachine_table_and_guard_witness :
    patchStatus wState "ord-w" (some "delivered") none 0 =
      (wState, .error ⟨409, .INVALID_STATUS_TRANSITION,
        "Cannot transition from " ++ wOrder.status ++ " to " ++ "delivered"⟩) :=
  (statusMachine_table_and_guard wState "ord-w" wOrder "delivered" none 0 rfl
    (by decide) (by decide)).2.2.2.2 (by decide)

/-- Claim C3: the status-update checks run in a fixed order with the first
failure winning — unknown order gives 404 before any body validation, then
a missing (falsy) status field gives 400, then a status outside the
enumeration gives 400 `VALIDATION_ERROR` (never 409), and only then is
transition legality checked, yielding either success or a 409
`INVALID_STATUS_TRANSITION`. -/
theorem patch_check_order
    (st : ServerState) (orderId : String) (status reason : Option String) (now : Int) :
    (mapGet st.orders orderId = none →
      patchStatus st orderId status reason now =
        (st, .error ⟨404, .NOT_FOUND, "Order not found"⟩)) ∧
    (∀ o, mapGet st.orders orderId = some o → strFalsy status = true →
      patchStatus st orderId status reason now =
        (st, .error ⟨400, .VALIDATION_ERROR, "Status is required"⟩)) ∧
    (∀ o s, mapGet st.orders orderId = some o → status = some s → (s == "") = false →
      validStatuses.contains s = false →
      patchStatus st orderId status reason now =
        (st, .error ⟨400, .VALIDATION_ERROR,
          "Invalid status. Must be one of: " ++ String.intercalate ", " validStatuses⟩)) ∧
    (∀ o s, mapGet st.orders orderId = some o → status = some s → s ∈ validStatuses →
      o.status ∈ validStatuses →
      (∃ o', patchStatus st orderId status reason now =
        ({ st with orders := mapSet st.orders orderId o' }, .ok o')) ∨
      patchStatus st orderId status reason now =
        (st, .error ⟨409, .INVALID_STATUS_TRANSITION,
          "Cannot transition from " ++ o.status ++ " to " ++ s⟩)) := by
  refine ⟨?_, ?_, ?_, ?_⟩
  · intro h
    simp [patchStatus, h]
  · intro o ho hf
    simp [patchStatus, ho, hf]
  · intro o s ho hs hne hcont
    subst hs
    have hnmem : s ∉ validStatuses := by
      intro hmem
      simp [hmem] at hcont
    simp [patchStatus, ho, strFalsy, hne, hnmem]
  · intro o s ho hs hmem hos
    subst hs
    obtain ⟨row, hrow, hct⟩ := canTransition_row hos
    have h1 := validStatuses_not_falsy hmem
    by_cases h3 : s ∈ row
    · exact Or.inl ⟨applyUpdate o s reason now,
        by simp [patchStatus, ho, strFalsy, h1, hmem, hrow, h3]⟩
    · refine Or.inr ?_
      simp [patchStatus, ho, strFalsy, h1, hmem, hrow, h3]

/-- Witness for C3: an unknown order identifier with an out-of-enumeration
status in the body still yields the 404, showing existence is checked
before body validation. -/
theorem patch_check_order_witness :
    patchStatus { orders := [], idempotencyKeys := [] } "nope" (some "garbage") none 0 =
      ({ orders := [], idempotencyKeys := [] },
        .error ⟨404, .NOT_FOUND, "Order not found"⟩) :=
  (patch_check_order { orders := [], idempotencyKeys := [] } "nope"
    (some "garbage") none 0).1 rfl

/-- Counterexample to claim C1 as stated: the ledger maps "key-w" to the
stored order `wOrder`, yet a replay under that key whose payload is missing
`customerId` is answered by the validation middleware with a 400
`VALIDATION_ERROR`, not with the stored order — validation runs before the
replay check. -/
theorem replay_counterexample :
    mapGet wState.idempotencyKeys "key-w" = some "ord-w" ∧
    mapGet wState.orders "ord-w" = some wOrder ∧
    (postOrders wState (some "key-w") none (some [⟨some "prod-w", some 1, some 10⟩])
        "ord-2" 5).2 =
      .error ⟨400, .VALIDATION_ERROR, "Customer ID is required"⟩ ∧
    (postOrders wState (some "key-w") none (some [⟨some "prod-w", some 1, some 10⟩])
        "ord-2" 5).2 ≠
      .ok (200, some wOrder) := by
  refine ⟨rfl, rfl, rfl, ?_⟩
  intro h
  rw [show (postOrders wState (some "key-w") none
      (some [⟨some "prod-w", some 1, some 10⟩]) "ord-2" 5).2 =
      .error ⟨400, .VALIDATION_ERROR, "Customer ID is required"⟩ from rfl] at h
  cases h

/-- Claim C1 (amended): for every create request whose idempotency key
already maps to an order identifier in the ledger and whose payload passes
validation, the operation returns the stored order with HTTP 200 without
re-computing anything and without comparing the replay payload to the
original — but validation does run on every request, so a replay whose
payload fails validation receives a validation error instead. -/
theorem replay_returns_stored
    (st : ServerState) (k c : Option String) (i : Option (List ItemInput))
    (fid : String) (now : Int) (oid : String)
    (hvalid : validateCreateOrder k c i = none)
    (hkey : mapGet st.idempotencyKeys (k.getD "") = some oid) :
    postOrders st k c i fid now = (st, .ok (200, mapGet st.orders oid)) := by
  simp [postOrders, hvalid, hkey]

/-- Witness for C1 (amended): replaying key "key-w" with a valid payload
that differs from the original still returns the stored `wOrder` with 200
and leaves the state unchanged. -/
theorem replay_returns_stored_witness :
    postOrders wState (some "key-w") (some "cust-OTHER")
        (some [⟨some "prod-z", some 3, some 7⟩]) "ord-9" 99 =
      (wState, .ok (200, some wOrder)) := by
  have h := replay_returns_stored wState (some "key-w") (some "cust-OTHER")
    (some [⟨some "prod-z", some 3, some 7⟩]) "ord-9" 99 "ord-w" rfl rfl
  simpa using h

/-- Claim C4: the created order's total is the sum of quantity × unit price
over the items rounded half-up to two decimal places, its status is
pending; the example items yield 75.48; and a status update never changes
the total amount or the items of any stored order. -/
theorem total_amount_correct
    (st : ServerState) (c : String) (items : List Item) (id : String) (now : Int) :
    ((createOrder st c items id now).2.totalAmount = roundTo2 (calculateTotal items) ∧
     (createOrder st c items id now).2.status = "pending") ∧
    roundTo2 (calculateTotal
      [⟨"prod-001", 2, 2999 / 100⟩, ⟨"prod-002", 1, 1550 / 100⟩]) = 7548 / 100 ∧
    (∀ st' oid s r now' oid2 o2,
      mapGet (patchStatus st' oid s r now').1.orders oid2 = some o2 →
      ∃ o1, mapGet st'.orders oid2 = some o1 ∧
        o2.totalAmount = o1.totalAmount ∧ o2.items = o1.items) := by
  refine ⟨⟨rfl, rfl⟩, ?_, ?_⟩
  · show roundTo2 ((0 + 2 * (2999 / 100 : ℚ)) + 1 * (1550 / 100)) = 7548 / 100
    rw [roundTo2]
    norm_num
  · intro st' oid s r now' oid2 o2 h2
    rcases patchStatus_spec st' oid s r now' with ⟨heq, _⟩ | ⟨o, t, ho, hst, hv, hcan, heq⟩
    · rw [heq] at h2
      exact ⟨o2, h2, rfl, rfl⟩
    · rw [heq] at h2
      simp only [mapGet_mapSet] at h2
      by_cases hk : (oid == oid2) = true
      · rw [if_pos hk] at h2
        cases h2
        exact ⟨o, by rw [← (beq_iff_eq.mp hk)]; exact ho, rfl, rfl⟩
      · rw [if_neg (by simpa using hk)] at h2
        exact ⟨o2, h2, rfl, rfl⟩

/-- Witness for C4: creating an order from the example items gives total
75.48 and status pending, and updating `wOrder` leaves its total amount
and items unchanged. -/
theorem total_amount_correct_witness :
    ((createOrder wState "cust-x"
        [⟨"prod-001", 2, 2999 / 100⟩, ⟨"prod-002", 1, 1550 / 100⟩] "ord-t" 0).2.totalAmount =
      7548 / 100 ∧
     (createOrder wState "cust-x"
        [⟨"prod-001", 2, 2999 / 100⟩, ⟨"prod-002", 1, 1550 / 100⟩] "ord-t" 0).2.status =
      "pending") ∧
    (∃ o1, mapGet wState.orders "ord-w" = some o1 ∧
      (applyUpdate wOrder "confirmed" none 7).totalAmount = o1.totalAmount ∧
      (applyUpdate wOrder "confirmed" none 7).items = o1.items) := by
  have h := total_amount_correct wState "cust-x"
    [⟨"prod-001", 2, 2999 / 100⟩, ⟨"prod-002", 1, 1550 / 100⟩] "ord-t" 0
  refine ⟨⟨?_, h.1.2⟩, ?_⟩
  · rw [h.1.1]
    exact h.2.1
  · exact h.2.2 wState "ord-w" (some "confirmed") none 7 "ord-w"
      (applyUpdate wOrder "confirmed" none 7) rfl

/-- Claim C5: create-order validation evaluates its checks in a fixed order
with the first failure winning, every failure is a 400 VALIDATION_ERROR,
and an item whose quantity or unit price is exactly 0 is rejected by the
falsy presence check, indistinguishably from a missing field. -/
theorem create_validation_order
    (k c : Option String) (i : Option (List ItemInput)) :
    (strFalsy k = true →
      validateCreateOrder k c i =
        some ⟨400, .VALIDATION_ERROR, "Idempotency-Key header is required"⟩) ∧
    (strFalsy k = false → strFalsy c = true →
      validateCreateOrder k c i =
        some ⟨400, .VALIDATION_ERROR, "Customer ID is required"⟩) ∧
    (strFalsy k = false → strFalsy c = false → (i.getD []).isEmpty = true →
      validateCreateOrder k c i =
        some ⟨400, .VALIDATION_ERROR, "At least one item is required"⟩) ∧
    (strFalsy k = false → strFalsy c = false → (i.getD []).isEmpty = false →
      validateCreateOrder k c i = validateItems (i.getD [])) ∧
    (∀ e, validateCreateOrder k c i = some e →
      e.httpStatus = 400 ∧ e.error = .VALIDATION_ERROR) ∧
    (∀ item : ItemInput, ∀ rest, item.quantity = some 0 →
      validateItems (item :: rest) =
        validateItems ({ item with quantity := none } :: rest) ∧
      validateItems (item :: rest) =
        some ⟨400, .VALIDATION_ERROR, "Each item must have productId, quantity, and unitPrice"⟩) ∧
    (∀ item : ItemInput, ∀ rest, item.unitPrice = some 0 →
      validateItems (item :: rest) =
        validateItems ({ item with unitPrice := none } :: rest) ∧
      validateItems (item :: rest) =
        some ⟨400, .VALIDATION_ERROR, "Each item must have productId, quantity, and unitPrice"⟩) := by
  refine ⟨?_, ?_, ?_, ?_, ?_, ?_, ?_⟩
  · intro h
    simp [validateCreateOrder, h]
  · intro hk hc
    simp [validateCreateOrder, hk, hc]
  · intro hk hc he
    simp [validateCreateOrder, hk, hc, he]
  · intro hk hc he
    simp [validateCreateOrder, hk, hc, he]
  · intro e he
    rw [validateCreateOrder] at he
    split at he
    · cases he
      exact ⟨rfl, rfl⟩
    · split at he
      · cases he
        exact ⟨rfl, rfl⟩
      · split at he
        · cases he
          exact ⟨rfl, rfl⟩
        · exact validateItems_error he
  · intro item rest hq
    constructor
    · simp [validateItems, numFalsy, hq]
    · simp [validateItems, numFalsy, hq]
  · intro item rest hp
    constructor
    · simp [validateItems, numFalsy, hp]
    · simp [validateItems, numFalsy, hp]

/-- Witness for C5: a missing idempotency key is the first failure, and an
item with quantity exactly 0 is rejected with the same presence error as an
item with the quantity field missing. -/
theorem create_validation_order_witness :
    validateCreateOrder none (some "cust-1") (some [⟨some "p", some 1, some 5⟩]) =
      some ⟨400, .VALIDATION_ERROR, "Idempotency-Key header is required"⟩ ∧
    validateItems [⟨some "p", some 0, some 5⟩] =
      validateItems [⟨some "p", none, some 5⟩] ∧
    validateItems [⟨some "p", some 0, some 5⟩] =
      some ⟨400, .VALIDATION_ERROR, "Each item must have productId, quantity, and unitPrice"⟩ := by
  have h := create_validation_order none (some "cust-1") (some [⟨some "p", some 1, some 5⟩])
  have hz := h.2.2.2.2.2.1 ⟨some "p", some 0, some 5⟩ [] rfl
  exact ⟨h.1 rfl, hz.1, hz.2⟩

/-- Claim C6: a rejected create or status update leaves both the order
store and the idempotency ledger unchanged, and a successful status update
mutates only the status, lastUpdated and statusReason fields of the
targeted order — orderId, customerId, placementDate, items and totalAmount
are preserved, the ledger is untouched, and no other order is affected. -/
theorem rejected_requests_frame
    (st : ServerState) (k c : Option String) (i : Option (List ItemInput))
    (fid : String) (now : Int) (oid : String) (s r : Option String) :
    (∀ e, (postOrders st k c i fid now).2 = .error e →
      (postOrders st k c i fid now).1 = st) ∧
    (∀ e, (patchStatus st oid s r now).2 = .error e →
      (patchStatus st oid s r now).1 = st) ∧
    (∀ o', (patchStatus st oid s r now).2 = .ok o' →
      ∃ o, mapGet st.orders oid = some o ∧
        o'.orderId = o.orderId ∧ o'.customerId = o.customerId ∧
        o'.placementDate = o.placementDate ∧ o'.items = o.items ∧
        o'.totalAmount = o.totalAmount ∧
        (patchStatus st oid s r now).1.idempotencyKeys = st.idempotencyKeys ∧
        mapGet (patchStatus st oid s r now).1.orders oid = some o' ∧
        ∀ oid2, oid2 ≠ oid →
          mapGet (patchStatus st oid s r now).1.orders oid2 = mapGet st.orders oid2) := by
  refine ⟨?_, ?_, ?_⟩
  · intro e he
    rcases hv : validateCreateOrder k c i with _ | err
    · rcases hkey : mapGet st.idempotencyKeys (k.getD "") with _ | oid'
      · simp [postOrders, hv, hkey] at he
      · simp [postOrders, hv, hkey] at he
    · simp [postOrders, hv]
  · intro e he
    rcases patchStatus_spec st oid s r now with ⟨h1, _⟩ | ⟨o, t, ho, hst, hvv, hcan, heq⟩
    · exact h1
    · rw [heq] at he
      cases he
  · intro o' ho'
    rcases patchStatus_spec st oid s r now with ⟨h1, h2⟩ | ⟨o, t, ho, hst, hvv, hcan, heq⟩
    · exact absurd ho' (h2 o')
    · have hoo : (Except.ok (applyUpdate o t r now) : Except ApiError Order) =
          Except.ok o' := by
        rw [heq] at ho'
        exact ho'
      injection hoo with hoo'
      subst hoo'
      refine ⟨o, ho, rfl, rfl, rfl, rfl, rfl, by rw [heq], ?_, ?_⟩
      · rw [heq]
        simp [mapGet_mapSet]
      · intro oid2 hne
        rw [heq]
        simp only [mapGet_mapSet, beq_iff_eq]
        rw [if_neg (Ne.symm hne)]

/-- Witness for C6: a status update on an unknown order identifier leaves
the state untouched. -/
theorem rejected_requests_frame_witness :
    (patchStatus wState "nope" (some "confirmed") none 3).1 = wState :=
  (rejected_requests_frame wState none none none "f" 3 "nope"
    (some "confirmed") none).2.1 ⟨404, .NOT_FOUND, "Order not found"⟩ rfl

/-- Claim C7: in search with a valid customer identifier, a limit above 100
is silently capped to 100 rather than rejected, the offset slice is applied
to the sorted filtered list, and totalCount is the size of the filtered
set before the pagination slice, hence independent of limit and offset. -/
theorem search_pagination
    (st : ServerState) (c : Option String) (sd ed : DateParam) (limit offset : Int)
    (hc : strFalsy c = false) :
    (100 < limit →
      searchOrders st c sd ed limit offset = searchOrders st c sd ed 100 offset) ∧
    (∀ r, searchOrders st c sd ed limit offset = .ok r →
      ∃ L, filteredSearch st (c.getD "") sd ed = .ok L ∧
        r.totalCount = L.length ∧
        r.orders = jsSlice (L.mergeSort newestFirst) offset (offset + min limit 100) ∧
        r.limit = min limit 100 ∧ r.offset = offset) ∧
    (∀ l2 o2 r1 r2, searchOrders st c sd ed limit offset = .ok r1 →
      searchOrders st c sd ed l2 o2 = .ok r2 → r1.totalCount = r2.totalCount) := by
  refine ⟨?_, ?_, ?_⟩
  · intro hl
    have hm : min limit 100 = (100 : ℤ) := min_eq_right (le_of_lt hl)
    simp [searchOrders, hc, hm]
  · intro r hr
    rcases hfs : filteredSearch st (c.getD "") sd ed with e | L
    · simp [searchOrders, hc, hfs] at hr
    · simp [searchOrders, hc, hfs] at hr
      subst hr
      exact ⟨L, rfl, rfl, rfl, rfl, rfl⟩
  · intro l2 o2 r1 r2 h1 h2
    rcases hfs : filteredSearch st (c.getD "") sd ed with e | L
    · simp [searchOrders, hc, hfs] at h1
    · simp [searchOrders, hc, hfs] at h1 h2
      subst h1
      subst h2
      rfl

/-- Witness for C7: searching with limit 150 behaves exactly as with
limit 100. -/
theorem search_pagination_witness :
    searchOrders wState (some "cust-w") .absent .absent 150 0 =
      searchOrders wState (some "cust-w") .absent .absent 100 0 :=
  (search_pagination wState (some "cust-w") .absent .absent 150 0 rfl).1 (by decide)

/-- Claim C8: search filters by exact customer match and keeps exactly the
orders whose placement timestamp is at least the start of startDate and at
most endDate at 23:59:59.999 UTC; a malformed startDate or endDate fails
with a 400 VALIDATION_ERROR before any result is produced. -/
theorem search_date_filters
    (st : ServerState) (c : Option String) (hc : strFalsy c = false) :
    (∀ ed limit offset, searchOrders st c .malformed ed limit offset =
      .error ⟨400, .VALIDATION_ERROR, "Invalid start date format"⟩) ∧
    (∀ sd limit offset, sd ≠ .malformed →
      searchOrders st c sd .malformed limit offset =
        .error ⟨400, .VALIDATION_ERROR, "Invalid end date format"⟩) ∧
    (∀ sd ed L, filteredSearch st (c.getD "") sd ed = .ok L →
      ∀ o, o ∈ L ↔
        (o ∈ st.orders.map Prod.snd ∧ o.customerId = c.getD "" ∧
         (∀ d, sd = .dateOnly d → d * msPerDay ≤ o.placementDate) ∧
         (∀ d, ed = .dateOnly d → o.placementDate ≤ d * msPerDay + 86399999))) := by
  refine ⟨?_, ?_, ?_⟩
  · intro ed limit offset
    simp [searchOrders, hc, filteredSearch, applyStartFilter]
  · intro sd limit offset hsd
    cases sd with
    | absent => simp [searchOrders, hc, filteredSearch, applyStartFilter, applyEndFilter]
    | malformed => exact absurd rfl hsd
    | dateOnly d =>
      simp [searchOrders, hc, filteredSearch, applyStartFilter, applyEndFilter]
  · intro sd ed L hL o
    cases sd with
    | malformed => simp [filteredSearch, applyStartFilter] at hL
    | absent =>
      cases ed with
      | malformed => simp [filteredSearch, applyStartFilter, applyEndFilter] at hL
      | absent =>
        simp [filteredSearch, applyStartFilter, applyEndFilter] at hL
        subst hL
        simp [List.mem_filter]
      | dateOnly d =>
        simp [filteredSearch, applyStartFilter, applyEndFilter] at hL
        subst hL
        simp only [List.mem_filter, List.mem_map, decide_eq_true_eq, beq_iff_eq,
          Bool.and_eq_true]
        aesop
    | dateOnly d =>
      cases ed with
      | malformed => simp [filteredSearch, applyStartFilter, applyEndFilter] at hL
      | absent =>
        simp [filteredSearch, applyStartFilter, applyEndFilter] at hL
        subst hL
        simp only [List.mem_filter, List.mem_map, decide_eq_true_eq, beq_iff_eq,
          Bool.and_eq_true]
        aesop
      | dateOnly d2 =>
        simp [filteredSearch, applyStartFilter, applyEndFilter] at hL
        subst hL
        simp only [List.mem_filter, List.mem_map, decide_eq_true_eq, beq_iff_eq,
          Bool.and_eq_true]
        aesop

/-- Witness for C8: a malformed startDate yields the 400 before anything
else. -/
theorem search_date_filters_witness :
    searchOrders wState (some "cust-w") .malformed .absent 20 0 =
      .error ⟨400, .VALIDATION_ERROR, "Invalid start date format"⟩ :=
  (search_date_filters wState (some "cust-w") rfl).1 .absent 20 0

/-- Claim C9: a reason supplied as the empty string, like any falsy reason,
is treated exactly like an omitted reason — the order keeps its previous
statusReason — and only a truthy reason overwrites it, so a client cannot
clear a previously set statusReason. -/
theorem reason_falsy_sticky
    (st : ServerState) (oid : String) (s reason : Option String) (now : Int) :
    (strFalsy none = true ∧ strFalsy (some "") = true ∧
      ∀ rs : String, rs ≠ "" → strFalsy (some rs) = false) ∧
    (∀ o', (patchStatus st oid s reason now).2 = .ok o' →
      ∃ o, mapGet st.orders oid = some o ∧
        o'.statusReason = (if strFalsy reason = true then o.statusReason else reason) ∧
        (strFalsy reason = true → o'.statusReason = o.statusReason) ∧
        (∀ rs, reason = some rs → rs ≠ "" → o'.statusReason = some rs)) := by
  refine ⟨⟨rfl, rfl, ?_⟩, ?_⟩
  · intro rs h
    simp [strFalsy, h]
  · intro o' ho'
    rcases patchStatus_spec st oid s reason now with ⟨h1, h2⟩ | ⟨o, t, ho, hst, hv, hcan, heq⟩
    · exact absurd ho' (h2 o')
    · have hoo : (Except.ok (applyUpdate o t reason now) : Except ApiError Order) =
          Except.ok o' := by
        rw [heq] at ho'
        exact ho'
      injection hoo with hoo'
      subst hoo'
      refine ⟨o, ho, rfl, ?_, ?_⟩
      · intro hf
        simp [applyUpdate, hf]
      · intro rs hrs hner
        subst hrs
        simp [applyUpdate, strFalsy, hner]

/-- Witness for C9: updating `wOrder` with an empty-string reason leaves
its statusReason unchanged. -/
theorem reason_falsy_sticky_witness :
    ∃ o, mapGet wState.orders "ord-w" = some o ∧
      (applyUpdate wOrder "confirmed" (some "") 7).statusReason =
        (if strFalsy (some "") = true then o.statusReason else some "") ∧
      (strFalsy (some "") = true →
        (applyUpdate wOrder "confirmed" (some "") 7).statusReason = o.statusReason) ∧
      (∀ rs, (some "" : Option String) = some rs → rs ≠ "" →
        (applyUpdate wOrder "confirmed" (some "") 7).statusReason = some rs) :=
  (reason_falsy_sticky wState "ord-w" (some "confirmed") (some "") 7).2
    (applyUpdate wOrder "confirmed" (some "") 7) rfl

/-- The store invariant of claim C10: every stored order's status is in the
six-value enumeration. -/
def StoreInv (st : ServerState) : Prop :=
  ∀ p ∈ st.orders, p.2.status ∈ validStatuses

/-- Claim C10: creation always writes status pending, and both the create
handler and the status-update handler preserve the invariant that every
stored order's status lies in the six-value enumeration (the update only
ever writes a value that passed the enumeration check). -/
theorem store_status_invariant
    (st : ServerState) (hinv : StoreInv st)
    (k c : Option String) (i : Option (List ItemInput)) (fid : String)
    (oid : String) (s r : Option String) (now : Int)
    (cid : String) (items : List Item) (id2 : String) :
    (createOrder st cid items id2 now).2.status = "pending" ∧
    StoreInv (createOrder st cid items id2 now).1 ∧
    StoreInv (postOrders st k c i fid now).1 ∧
    StoreInv (patchStatus st oid s r now).1 := by
  have hcreate : ∀ (cid' : String) (items' : List Item) (id' : String) (now' : Int),
      StoreInv (createOrder st cid' items' id' now').1 := by
    intro cid' items' id' now' p hp
    rcases mem_mapSet hp with h | h
    · exact hinv p h
    · subst h
      simp [validStatuses]
  refine ⟨rfl, hcreate _ _ _ _, ?_, ?_⟩
  · rcases hv : validateCreateOrder k c i with _ | err
    · rcases hkey : mapGet st.idempotencyKeys (k.getD "") with _ | oid'
      · intro p hp
        have hp' : p ∈ (createOrder st (c.getD "") ((i.getD []).map toItem) fid now).1.orders := by
          simpa [postOrders, hv, hkey] using hp
        exact hcreate _ _ _ _ p hp'
      · intro p hp
        exact hinv p (by simpa [postOrders, hv, hkey] using hp)
    · intro p hp
      exact hinv p (by simpa [postOrders, hv] using hp)
  · rcases patchStatus_spec st oid s r now with ⟨h1, _⟩ | ⟨o, t, ho, hst, hvv, hcan, heq⟩
    · rw [h1]
      exact hinv
    · rw [heq]
      intro p hp
      rcases mem_mapSet hp with h | h
      · exact hinv p h
      · subst h
        simpa [applyUpdate] using hvv

/-- Witness for C10: the invariant holds on `wState` and is preserved by a
concrete status update. -/
theorem store_status_invariant_witness :
    StoreInv (patchStatus wState "ord-w" (some "confirmed") none 3).1 :=
  (store_status_invariant wState
    (by
      intro p hp
      simp [wState] at hp
      subst hp
      simp [wOrder, validStatuses])
    none none none "f" "ord-w" (some "confirmed") none 3 "cust-z" [] "ord-z").2.2.2

end MockOrderApi
